import Mathlib

/-!
Verification development for the real-time chat backend
(`backend/sockets/chat.js`, `backend/models/Message.js`).

Each section shallowly embeds one part of the source as executable Lean
definitions (Redis/Mongo effects become explicit state passing; the
coordination store's `get`/`set`/`del` are modelled as typed values, with
`[]`/`none` standing for an absent key) and proves or refutes the
corresponding specified property.
-/

namespace ChatBackend

/-! ## Message history loader (`loadMessages`, chat.js lines 33-220)

A stored message keeps exactly the fields the loader inspects: Mongo `_id`
(field `id` here), `timestamp` (as a `Nat`; JS `Date` values compare by
their numeric value), `room`, and the soft-delete flag `isDeleted`. -/

structure Msg where
  id : Nat
  timestamp : Nat
  room : Nat
  isDeleted : Bool
  deriving DecidableEq

/-- `RECENT_MESSAGE_CACHE = 50` (chat.js line 12). -/
def RECENT_MESSAGE_CACHE : Nat := 50

/-- `BATCH_SIZE = 30` (chat.js line 17): default page limit. -/
def BATCH_SIZE : Nat := 30

/-- Stable descending insertion, modelling the `$sort: { timestamp: -1 }`
stage of the aggregation pipeline. -/
def insertDesc (m : Msg) : List Msg → List Msg
  | [] => [m]
  | x :: xs => if x.timestamp ≤ m.timestamp then m :: x :: xs else x :: insertDesc m xs

def sortDesc : List Msg → List Msg
  | [] => []
  | x :: xs => insertDesc x (sortDesc xs)

/-- Stable ascending insertion, modelling the JS
`resultMessages.sort((a, b) => new Date(a.timestamp) - new Date(b.timestamp))`. -/
def insertAsc (m : Msg) : List Msg → List Msg
  | [] => [m]
  | x :: xs => if m.timestamp ≤ x.timestamp then m :: x :: xs else x :: insertAsc m xs

def sortAsc : List Msg → List Msg
  | [] => []
  | x :: xs => insertAsc x (sortAsc xs)

/-- The page object `{ messages, hasMore, oldestTimestamp }` returned by
`loadMessages`; `oldestTimestamp = none` models the JS `null`. -/
structure LoadPage where
  messages : List Msg
  hasMore : Bool
  oldestTimestamp : Option Nat
  deriving DecidableEq

/-- `loadMessages(socket, roomId, before, limit)` (chat.js lines 33-220).

State in: the persistent store (all messages) and the Redis cache entry
`room:messages:{roomId}` (`[]` = absent, as in `await redisClient.get(...) || []`).
Returns the page, the cache entry after the call, and whether the Mongo
aggregation was issued.

* no `before` and non-empty cache (lines 44-57): return
  `cachedMessages.slice(-limit)` verbatim, `hasMore = cachedMessages.length > limit`,
  `oldestTimestamp = sortedMessages[0]?.timestamp`, and issue no store query;
* otherwise (lines 61-195): filter to `room = roomId`, `isDeleted: false`,
  and `timestamp < before` when given; sort by timestamp descending; take
  `limit + 1`; `hasMore = messages.length > limit`; re-sort the first
  `limit` ascending; on the no-`before` path cache
  `messages.slice(0, RECENT_MESSAGE_CACHE)` — the fetched (descending) list.

The asynchronous best-effort `bulkWrite` read-receipt side effect
(lines 158-184) does not influence the returned page and is omitted. -/
def loadMessages (store : List Msg) (cache : List Msg) (roomId : Nat)
    (before : Option Nat) (limit : Nat) : LoadPage × List Msg × Bool :=
  if before.isNone && !cache.isEmpty then
    let sortedMessages :=
      if limit < cache.length then cache.drop (cache.length - limit) else cache
    (⟨sortedMessages, decide (limit < cache.length),
      sortedMessages.head?.map (·.timestamp)⟩, cache, false)
  else
    let eligible := store.filter fun m =>
      m.room == roomId && !m.isDeleted &&
        (match before with
         | some b => decide (m.timestamp < b)
         | none => true)
    let fetched := (sortDesc eligible).take (limit + 1)
    let hasMore := decide (limit < fetched.length)
    let sortedMessages := sortAsc (fetched.take limit)
    let newCache :=
      if before.isNone && !fetched.isEmpty then fetched.take RECENT_MESSAGE_CACHE
      else cache
    (⟨sortedMessages, hasMore, sortedMessages.head?.map (·.timestamp)⟩, newCache, true)

/-- A room with two live messages, timestamps 10 and 20. -/
def c1Store : List Msg := [⟨1, 10, 1, false⟩, ⟨2, 20, 1, false⟩]

/-- 31 live messages in room 1, ids and timestamps 1..31. -/
def c2Store : List Msg := (List.range 31).map fun i => ⟨i + 1, i + 1, 1, false⟩

/-! ## Bounded retry (`loadMessagesWithRetry`, chat.js lines 223-258) -/

/-- `MAX_RETRIES = 3` (chat.js line 19). -/
def MAX_RETRIES : Nat := 3

/-- `RETRY_DELAY = 2000` (chat.js line 21): base retry delay in ms. -/
def RETRY_DELAY : Nat := 2000

/-- How one `loadMessagesWithRetry` invocation ends: `ok` models a returned
page, `maxRetriesError` the thrown `'최대 재시도 횟수를 초과했습니다.'`. -/
inductive LoadOutcome where
  | ok
  | maxRetriesError
  deriving DecidableEq

/-- The observable behaviour of one `loadMessagesWithRetry` invocation:
its outcome, how many times `loadMessages` was invoked, the successive
`setTimeout` delays, and the `messageLoadRetry:{roomId}:{userId}` counter
left in Redis at the end (`none` = deleted/absent). -/
structure RetryRun where
  outcome : LoadOutcome
  attempts : Nat
  delays : List Nat
  finalCounter : Option Nat
  deriving DecidableEq

/-- Recursion core of `loadMessagesWithRetry`. `att n` is the outcome of
the `n`-th `loadMessages` call of the session (`true` = success); `counter`
is the current Redis retry counter (`0` both for an absent key and for
`Number(null)`); `remaining = MAX_RETRIES - counter` is the structural
fuel, which the code's own counter arithmetic keeps exact: the guard
`Number(retryCountValue) >= MAX_RETRIES` (line 229) fires exactly when
`remaining = 0`.

* `remaining = 0` (counter at the ceiling): the try block throws the
  max-retries error before calling `loadMessages`; the catch block sees
  `currentRetries ≥ MAX_RETRIES`, deletes the counter and rethrows.
* otherwise, `loadMessages` runs once. On success the counter is deleted
  and the result returned (lines 233-236). On failure the counter becomes
  `counter + 1` with a 60s TTL, the code waits
  `Math.min(RETRY_DELAY * 2 ** currentRetries, 10000)` ms and recurses
  (lines 240-252). -/
def loadMessagesWithRetryAux (att : Nat → Bool) : Nat → Nat → Nat → RetryRun
  | _, _, 0 => ⟨.maxRetriesError, 0, [], none⟩
  | idx, counter, remaining + 1 =>
    if att idx then ⟨.ok, 1, [], none⟩
    else
      let rest := loadMessagesWithRetryAux att (idx + 1) (counter + 1) remaining
      ⟨rest.outcome, rest.attempts + 1,
        min (RETRY_DELAY * 2 ^ counter) 10000 :: rest.delays, rest.finalCounter⟩

/-- `loadMessagesWithRetry(socket, roomId, before)` starting from Redis
retry counter `counter` for this `(room, identity)` pair. -/
def loadMessagesWithRetry (att : Nat → Bool) (counter : Nat) : RetryRun :=
  loadMessagesWithRetryAux att 0 counter (MAX_RETRIES - counter)

/-! ## Load-in-flight guard (`fetchPreviousMessages` handler, chat.js lines 396-451) -/

/-- Events the `fetchPreviousMessages` handler can emit to the requesting
socket: `messageLoadStart`, `previousMessagesLoaded`, and the
`socket.emit('error', { type: 'LOAD_ERROR', ... })` of the catch block. -/
inductive FPEvent where
  | messageLoadStart
  | previousMessagesLoaded
  | errorEvent
  deriving DecidableEq

/-- The `fetchPreviousMessages` handler.

Inputs describe the state the handler observes: `isMember` is the result
of the `Room.findOne({_id: roomId, participants: userId})` authorisation
check (lines 405-412); `guardPresent` is whether
`messageQueue:{roomId}:{userId}` is set in Redis (line 415);
`loadSucceeds` is whether `loadMessagesWithRetry` returns a page.

Output: the events emitted to the requester, in order, and whether a load
(`loadMessagesWithRetry`) was started. The handler checks membership,
then the guard — a present guard logs and `return`s before
`messageLoadStart` is emitted or any load begins (lines 415-422). -/
def fetchPreviousMessages (isMember guardPresent loadSucceeds : Bool) :
    List FPEvent × Bool :=
  if !isMember then ([.errorEvent], false)
  else if guardPresent then ([], false)
  else if loadSucceeds then ([.messageLoadStart, .previousMessagesLoaded], true)
  else ([.messageLoadStart, .errorEvent], true)

/-! ## Presence record (`connectedUser:{userId}`, chat.js lines 390-392 and 808-812) -/

/-- Registering an established connection (line 391):
`redisClient.set('connectedUser:' + userId, socket.id)` — an unconditional,
last-writer-wins overwrite of the Presence Record. -/
def registerConnection (_presence : Option String) (socketId : String) :
    Option String :=
  some socketId

/-- The disconnect handler's presence cleanup (lines 809-812): the record
is deleted only when it still names the disconnecting socket
(`if (redisSocketId === socket.id) del(...)`). -/
def disconnectCleanup (presence : Option String) (socketId : String) :
    Option String :=
  if presence = some socketId then none else presence

/-! ## Room join (`joinRoom` handler, chat.js lines 454-544)

The state a `joinRoom` call reads and writes for one identity: its
Occupancy Record `userRoom:{userId}` in Redis, the persisted rooms with
their `participants` lists, and the persisted system messages (we record
the room of each join announcement). `hasPassword` carries the room's
password protection flag; the socket handler never consults it. -/

structure RoomRec where
  rid : Nat
  participants : List Nat
  hasPassword : Bool
  deriving DecidableEq

structure JoinState where
  userRoom : Option Nat
  rooms : List RoomRec
  joinMessages : List Nat
  deriving DecidableEq

/-- `Room.findById`-style lookup of a room's participants. -/
def findRoom (s : JoinState) (r : Nat) : Option (List Nat) :=
  (s.rooms.find? fun p => p.rid == r).map (·.participants)

/-- The externally visible actions of one `joinRoom` call, in program
order. `emitJoinRoomSuccessShort` is the early `socket.emit('joinRoomSuccess',
{ roomId })` of the already-in-room path (line 467); `emitJoinRoomSuccess`
is the full response `{ roomId, participants, messages, hasMore,
oldestTimestamp }` (lines 520-526). -/
inductive JAction where
  | socketLeave (room : Nat)
  | delUserRoom
  | emitUserLeft (room : Nat)
  | addParticipant (room : Nat)
  | socketJoin (room : Nat)
  | setUserRoom (room : Nat)
  | saveJoinMessage (room : Nat)
  | loadInitial (room : Nat)
  | emitJoinRoomSuccess (room : Nat) (participants : List Nat)
  | emitJoinRoomSuccessShort (room : Nat)
  | broadcastJoinMessage (room : Nat)
  | broadcastParticipants (room : Nat) (participants : List Nat)
  | emitJoinRoomError
  deriving DecidableEq

/-- The leave-previous-room actions of lines 472-484: `socket.leave(old)`,
deletion of the Occupancy Record, and the `userLeft` broadcast to the old
room — nothing else; in particular no update of the old room's persisted
`participants` list. -/
def leaveTraceOf : Option Nat → List JAction
  | some cur => [.socketLeave cur, .delUserRoom, .emitUserLeft cur]
  | none => []

/-- The `joinRoom` handler for identity `uid` joining room `r`.

* Occupancy already names `r` (lines 461-469): log, emit the short
  success, return — nothing else happens.
* Otherwise, if an old room exists: the `leaveTraceOf` actions run and the
  Occupancy Record is cleared.
* `Room.findByIdAndUpdate(roomId, { $addToSet: { participants: uid } })`
  (lines 487-494): one atomic existence check plus set-semantics addition;
  a missing room throws, and the catch block emits `joinRoomError`
  (lines 538-543). The lookup reads only the room documents, which the
  preceding occupancy-record deletion does not touch, so it is written
  against `s` directly.
* Then `socket.join`, write the Occupancy Record, persist the system join
  message, load the initial history page, emit the full `joinRoomSuccess`,
  and broadcast the join message and the updated participants list
  (lines 500-529). -/
def joinRoom (s : JoinState) (uid r : Nat) : JoinState × List JAction :=
  if s.userRoom = some r then
    (s, [.emitJoinRoomSuccessShort r])
  else
    match findRoom s r with
    | none => ({ s with userRoom := none }, leaveTraceOf s.userRoom ++ [.emitJoinRoomError])
    | some mem =>
      let mem' := if uid ∈ mem then mem else mem ++ [uid]
      ({ userRoom := some r
         rooms := s.rooms.map fun p =>
           if p.rid == r then { p with participants := mem' } else p
         joinMessages := s.joinMessages ++ [r] },
       leaveTraceOf s.userRoom ++
        [.addParticipant r, .socketJoin r, .setUserRoom r, .saveJoinMessage r,
         .loadInitial r, .emitJoinRoomSuccess r mem', .broadcastJoinMessage r,
         .broadcastParticipants r mem'])

/-- Identity 5 occupies room 1 (and is in its persisted member list);
room 2 is password-protected. Used to settle the join-ordering claim. -/
def c5State : JoinState :=
  { userRoom := some 1
    rooms := [⟨1, [5], false⟩, ⟨2, [9], true⟩]
    joinMessages := [] }

/-- Identity 5 occupies no room; room 2 has participants `[9]`. Used to
settle the join-idempotence claim. -/
def c6State : JoinState :=
  { userRoom := none
    rooms := [⟨2, [9], false⟩]
    joinMessages := [] }

/-! ## Text message send (`chatMessage` handler, chat.js lines 547-724,
`extractAIMentions` lines 999-1014)

The mention regex is `/@(wayneAI|consultingAI)\b/g`; `\b` after the name
(which ends in a word character) requires the next character to be outside
`[A-Za-z0-9_]` or the end of input. Matching is global and non-overlapping:
after a match the scan resumes past the matched text. -/

/-- JS `\w`: ASCII letters, digits and underscore. -/
def isWordChar (c : Char) : Bool :=
  c.isAlphanum || c == '_'

/-- Whether `p` is literally the next characters of `l`. -/
def litMatches : List Char → List Char → Bool
  | [], _ => true
  | _ :: _, [] => false
  | p :: ps, c :: cs => p == c && litMatches ps cs

/-- The `\b` word boundary after a name ending in a word character: end of
input, or a non-word character next. -/
def boundaryOk : List Char → Bool
  | [] => true
  | c :: _ => !isWordChar c

/-- JS `String.prototype.trim` on the character list. -/
def trimChars (l : List Char) : List Char :=
  ((l.dropWhile Char.isWhitespace).reverse.dropWhile Char.isWhitespace).reverse

/-- JS `content.trim()`. -/
def jsTrim (s : String) : String :=
  String.mk (trimChars s.toList)

/-- One global regex scan for `@name\b` (`name` one of the assistant
identifiers, which contain no `'@'`). The second argument counts matched
characters still to be skipped, so a successful match at `'@'` resumes
exactly past the matched text, as `RegExp.exec`'s `lastIndex` does.
Alternation tries `wayneAI` before `consultingAI`, as in the pattern. -/
def extractAIMentionsAux : List Char → Nat → List String
  | [], _ => []
  | _ :: rest, skip + 1 => extractAIMentionsAux rest skip
  | c :: rest, 0 =>
    if c == '@' then
      if litMatches "wayneAI".toList rest && boundaryOk (rest.drop 7) then
        "wayneAI" :: extractAIMentionsAux rest 7
      else if litMatches "consultingAI".toList rest && boundaryOk (rest.drop 12) then
        "consultingAI" :: extractAIMentionsAux rest 12
      else extractAIMentionsAux rest 0
    else extractAIMentionsAux rest 0

/-- The handler's `Set`-based deduplication (insertion order, first
occurrence kept). -/
def dedupMentions (seen : List String) : List String → List String
  | [] => []
  | x :: xs =>
    if seen.contains x then dedupMentions seen xs
    else x :: dedupMentions (seen ++ [x]) xs

/-- `extractAIMentions(content)` (chat.js lines 999-1014): `[]` for a
missing or empty (falsy) content, otherwise the distinct assistant names
mentioned, in first-mention order. -/
def extractAIMentions (content : Option String) : List String :=
  match content with
  | none => []
  | some c => if c = "" then [] else dedupMentions [] (extractAIMentionsAux c.toList 0)

/-- `content.replace(new RegExp('@' ++ name ++ '\\b', 'g'), '')` for one
assistant `name`: every match is dropped from the output; the skip counter
again models the scan resuming past each match. -/
def replaceAIMention (name : List Char) : List Char → Nat → List Char
  | [], _ => []
  | _ :: rest, skip + 1 => replaceAIMention name rest skip
  | c :: rest, 0 =>
    if c == '@' && litMatches name rest && boundaryOk (rest.drop name.length) then
      replaceAIMention name rest name.length
    else c :: replaceAIMention name rest 0

/-- The query handed to `handleAIResponse` for assistant `ai` (chat.js
line 704): the raw content with that assistant's mention tokens removed,
trimmed. -/
def aiQuery (ai : String) (content : String) : String :=
  jsTrim (String.mk (replaceAIMention ai.toList content.toList 0))

/-- The claim's notion of "content after mention-stripping": the raw
content with every known assistant mention token removed, then trimmed. -/
def contentAfterMentionStrip (content : String) : String :=
  jsTrim (String.mk
    (replaceAIMention "consultingAI".toList
      (replaceAIMention "wayneAI".toList content.toList 0) 0))

/-- `const messageContent = content?.trim() || messageData.msg?.trim()`
(chat.js line 628): the trimmed content, falling back to the trimmed
legacy `msg` field when `content` is missing or trims to the empty
(falsy) string; `""` also stands for JS `undefined`, which the following
`if (!messageContent)` treats identically. -/
def effectiveTextContent (content msgField : Option String) : String :=
  let lhs := (content.map jsTrim).getD ""
  if lhs = "" then (msgField.map jsTrim).getD "" else lhs

/-- Result of the `type === 'text'` branch for an authorised sender with a
valid session: `silentNoop` is the bare `return` of line 630 (nothing
persisted, nothing broadcast, no error emitted); `sent persisted aiCalls`
means a message with content `persisted` was saved and broadcast to the
room (lines 633-699), after which `handleAIResponse` is invoked once per
mentioned assistant with the stripped query (lines 702-707). -/
inductive TextOutcome where
  | silentNoop
  | sent (persisted : String) (aiCalls : List (String × String))
  deriving DecidableEq

/-- The text-message path of the `chatMessage` handler. -/
def chatMessageText (content msgField : Option String) : TextOutcome :=
  let messageContent := effectiveTextContent content msgField
  if messageContent = "" then .silentNoop
  else
    .sent messageContent
      ((extractAIMentions content).map fun ai => (ai, aiQuery ai (content.getD "")))

/-! ## Read receipts (`markMessagesAsRead` handler, chat.js lines 895-952) -/

/-- A persisted message as the read-receipt update sees it: id, room, and
the `readers` array of `(userId, readAt)` pairs. -/
structure StoredMsg where
  id : Nat
  room : Nat
  readers : List (Nat × Nat)
  deriving DecidableEq

/-- A cached message as the cache-patch loop sees it: id and the reader
user ids (`none` models a missing `readers` field, re-initialised to `[]`
by the loop before the membership test). -/
structure CachedMsg where
  id : Nat
  readers : Option (List Nat)
  deriving DecidableEq

/-- Events the `markMessagesAsRead` handler emits: the
`socket.to(roomId).emit('messagesRead', { userId, messageIds })` broadcast
(lines 941-944), or the catch block's `socket.emit('error', ...)`
(lines 947-950). -/
inductive MarkEvent where
  | messagesRead (userId : Nat) (messageIds : List Nat)
  | errorEvent
  deriving DecidableEq

/-- The `Message.updateMany` of lines 906-920: push `(uid, now)` onto the
`readers` of every named message of the room whose readers do not already
contain `uid`. -/
def dbMarkRead (store : List StoredMsg) (ids : List Nat) (roomId uid now : Nat) :
    List StoredMsg :=
  store.map fun m =>
    if ids.contains m.id && m.room == roomId
        && !(m.readers.map (·.1)).contains uid then
      { m with readers := m.readers ++ [(uid, now)] }
    else m

/-- Whether the cache-patch loop of lines 926-935 reaches
`cached[idx].readers.push({ userId: socket.user.id, readAt })`: some named
id is present in the cache with `uid` not yet among its readers. The
pushed object names the variable `readAt`, which is declared nowhere in
the handler, so evaluating the object literal throws a `ReferenceError`
the moment this line is reached. -/
def cachePatchThrows (cache : List CachedMsg) (ids : List Nat) (uid : Nat) : Bool :=
  ids.any fun mid =>
    match cache.find? (fun c => c.id == mid) with
    | some c => !(c.readers.getD []).contains uid
    | none => false

/-- The `markMessagesAsRead` handler for an authenticated `uid`: an empty
or missing id list returns silently (lines 901-903); otherwise the store
update runs, then the cache patch — whose `ReferenceError`, when thrown,
lands in the catch block, so the handler emits the error event instead of
the `messagesRead` broadcast. The cache entry itself is never modified:
`setEx` is only reached with `cacheChanged = true`, which would require
the very push that throws. Returns the updated store and the emitted
events. -/
def markMessagesAsRead (store : List StoredMsg) (cache : List CachedMsg)
    (roomId uid now : Nat) (ids : List Nat) : List StoredMsg × List MarkEvent :=
  if ids.isEmpty then (store, [])
  else
    let store' := dbMarkRead store ids roomId uid now
    if cachePatchThrows cache ids uid then (store', [.errorEvent])
    else (store', [.messagesRead uid ids])

/-! ## Reactions (`Message.addReaction` / `Message.removeReaction`,
Message.js lines 154-205)

The `reactions` field is a `Map` from emoji label to a list of reactor
user ids (schema lines 63-70, default the empty map). We model the map as
an insertion-ordered association list, as JS `Map` iteration is. -/

/-- emoji label ↦ reactor user ids. -/
abbrev Reactions := List (String × List Nat)

/-- `this.reactions.get(emoji)`. -/
def reactionsGet (rs : Reactions) (emoji : String) : Option (List Nat) :=
  (rs.find? fun p => p.1 == emoji).map (·.2)

/-- `this.reactions.set(emoji, v)`: update the existing entry in place, or
append a new one. -/
def reactionsSet (rs : Reactions) (emoji : String) (v : List Nat) : Reactions :=
  if (rs.find? fun p => p.1 == emoji).isSome then
    rs.map fun p => if p.1 == emoji then (p.1, v) else p
  else rs ++ [(emoji, v)]

/-- `this.reactions.delete(emoji)`. -/
def reactionsDelete (rs : Reactions) (emoji : String) : Reactions :=
  rs.filter fun p => !(p.1 == emoji)

/-- `addReaction(emoji, userId)` (Message.js lines 154-177): read the
label's list (default `[]`), push the reactor only if absent, write back,
and return `this.reactions.get(emoji)` — the label's list after the
update. -/
def addReaction (rs : Reactions) (emoji : String) (uid : Nat) :
    Reactions × Option (List Nat) :=
  let userReactions := (reactionsGet rs emoji).getD []
  if userReactions.contains uid then (rs, reactionsGet rs emoji)
  else
    let rs' := reactionsSet rs emoji (userReactions ++ [uid])
    (rs', reactionsGet rs' emoji)

/-- `removeReaction(emoji, userId)` (Message.js lines 179-205): a missing
label returns immediately (JS `undefined`, here `none`); otherwise the
reactor is filtered out, the label is deleted when its list becomes empty
and rewritten otherwise, and `this.reactions.get(emoji)` after the update
is returned. -/
def removeReaction (rs : Reactions) (emoji : String) (uid : Nat) :
    Reactions × Option (List Nat) :=
  match reactionsGet rs emoji with
  | none => (rs, none)
  | some cur =>
    let upd := cur.filter fun i => !(i == uid)
    let rs' := if upd.isEmpty then reactionsDelete rs emoji else reactionsSet rs emoji upd
    (rs', reactionsGet rs' emoji)

/-- One reaction toggle, as dispatched by the `messageReaction` socket
handler (chat.js lines 967-971). -/
inductive ReactionOp where
  | add (emoji : String) (uid : Nat)
  | remove (emoji : String) (uid : Nat)

/-- The state change of one toggle. -/
def applyReactionOp (rs : Reactions) : ReactionOp → Reactions
  | .add e u => (addReaction rs e u).1
  | .remove e u => (removeReaction rs e u).1

/-- Any sequence of toggles applied to a message's initially empty
reaction map (the schema default `new Map()`). -/
def applyReactionOps (ops : List ReactionOp) : Reactions :=
  ops.foldl applyReactionOp []

/-- The reaction-map invariant: labels are distinct, and every label's
reactor list is non-empty and duplicate-free. -/
def ReactionsWF (rs : Reactions) : Prop :=
  (rs.map (·.1)).Nodup ∧ ∀ p ∈ rs, p.2 ≠ [] ∧ p.2.Nodup

/-! # Theorems -/

/-- C1: the claim says every history page — cache-hit or store-query —
has ascending timestamps, `hasMore` iff more than `limit` eligible
messages, and `oldestTimestamp` the first (oldest) returned timestamp.
The code violates this on the cache-hit path: the store-query path caches
the aggregation's *descending* list (`messages.slice(0, RECENT_MESSAGE_CACHE)`,
line 188) and the cache-hit path returns the cached slice without
re-sorting (lines 49-56). Concretely, in a room whose two messages have
timestamps 10 and 20, the first initial load (cache miss) returns the
spec-conformant ascending page `[10, 20]`, but the second initial load
hits the cache it wrote and returns `[20, 10]` — descending — with
`oldestTimestamp = 20`, the *newest* returned timestamp. -/
theorem loadMessages_cacheHit_order_bug :
    (loadMessages c1Store [] 1 none BATCH_SIZE).1.messages.map (·.timestamp) = [10, 20]
    ∧ (loadMessages c1Store [] 1 none BATCH_SIZE).1.oldestTimestamp = some 10
    ∧ (loadMessages c1Store [] 1 none BATCH_SIZE).2.1.map (·.timestamp) = [20, 10]
    ∧ (loadMessages c1Store
        (loadMessages c1Store [] 1 none BATCH_SIZE).2.1 1 none BATCH_SIZE).2.2 = false
    ∧ (loadMessages c1Store
        (loadMessages c1Store [] 1 none BATCH_SIZE).2.1 1 none
          BATCH_SIZE).1.messages.map (·.timestamp) = [20, 10]
    ∧ (loadMessages c1Store
        (loadMessages c1Store [] 1 none BATCH_SIZE).2.1 1 none
          BATCH_SIZE).1.oldestTimestamp = some 20 := by decide

/-- C2: the claim says a cache hit for an initial page returns the same
set of most-recent messages a store query would return. With 31 eligible
messages (ids = timestamps 1..31) and `limit = 30`, the store query
returns ids 2..31 (the 30 most recent) and writes the fetched descending
31-element list to the cache; the following cache hit issues no store
query but returns `cachedMessages.slice(-30)` of that descending list —
ids 30..1, i.e. it contains the *oldest* message (id 1) and drops the
*newest* (id 31). The two pages are different sets. -/
theorem loadMessages_cacheHit_wrong_window :
    (loadMessages c2Store
        (loadMessages c2Store [] 1 none BATCH_SIZE).2.1 1 none BATCH_SIZE).2.2 = false
    ∧ (loadMessages c2Store [] 1 none BATCH_SIZE).1.messages.map (·.id)
        = (List.range 30).map (· + 2)
    ∧ (loadMessages c2Store
        (loadMessages c2Store [] 1 none BATCH_SIZE).2.1 1 none
          BATCH_SIZE).1.messages.map (·.id) = (List.range 30).reverse.map (· + 1)
    ∧ 1 ∈ (loadMessages c2Store
        (loadMessages c2Store [] 1 none BATCH_SIZE).2.1 1 none
          BATCH_SIZE).1.messages.map (·.id)
    ∧ 1 ∉ (loadMessages c2Store [] 1 none BATCH_SIZE).1.messages.map (·.id)
    ∧ 31 ∈ (loadMessages c2Store [] 1 none BATCH_SIZE).1.messages.map (·.id)
    ∧ 31 ∉ (loadMessages c2Store
        (loadMessages c2Store [] 1 none BATCH_SIZE).2.1 1 none
          BATCH_SIZE).1.messages.map (·.id) := by decide

/-- Behaviour of the retry core, by induction on the remaining budget:
the attempt count is bounded by the budget, the Redis retry counter is
always gone at the end, and the `i`-th delay is
`min(RETRY_DELAY * 2 ^ (counter + i), 10000)`. -/
theorem loadMessagesWithRetryAux_spec (att : Nat → Bool) :
    ∀ remaining idx counter,
      (loadMessagesWithRetryAux att idx counter remaining).attempts ≤ remaining
      ∧ (loadMessagesWithRetryAux att idx counter remaining).finalCounter = none
      ∧ ∀ i, i < (loadMessagesWithRetryAux att idx counter remaining).delays.length →
          (loadMessagesWithRetryAux att idx counter remaining).delays[i]?
            = some (min (RETRY_DELAY * 2 ^ (counter + i)) 10000)
  | 0, idx, counter => by simp [loadMessagesWithRetryAux]
  | remaining + 1, idx, counter => by
    have ih := loadMessagesWithRetryAux_spec att remaining (idx + 1) (counter + 1)
    by_cases h : att idx
    · simp [loadMessagesWithRetryAux, h]
    · simp only [loadMessagesWithRetryAux, h, Bool.false_eq_true, if_false]
      refine ⟨Nat.succ_le_succ ih.1, ih.2.1, ?_⟩
      intro i hi
      cases i with
      | zero => simp
      | succ j =>
        simp only [List.getElem?_cons_succ]
        have hj : j < (loadMessagesWithRetryAux att (idx + 1) (counter + 1)
            remaining).delays.length := by
          simpa using hi
        rw [ih.2.2 j hj]
        have harith : counter + 1 + j = counter + (j + 1) := by omega
        rw [harith]

/-- C3: `loadMessagesWithRetry` makes at most `MAX_RETRIES + 1`
`loadMessages` attempts in any invocation (whatever the pre-existing
counter `counter` holds); a counter already at the ceiling fails fast with
the max-retries error and zero attempts; the `i`-th wait is the
exponentially growing `min(RETRY_DELAY * 2 ^ (counter + i), 10000)` ms
(base 2s, doubling per retry, capped at 10s); and on success the retry
counter has been cleared (it is in fact always deleted on termination). -/
theorem loadMessagesWithRetry_spec (att : Nat → Bool) (counter : Nat) :
    (loadMessagesWithRetry att counter).attempts ≤ MAX_RETRIES + 1
    ∧ ((loadMessagesWithRetry att counter).outcome = .ok →
        (loadMessagesWithRetry att counter).finalCounter = none)
    ∧ (MAX_RETRIES ≤ counter →
        (loadMessagesWithRetry att counter).attempts = 0
        ∧ (loadMessagesWithRetry att counter).outcome = .maxRetriesError)
    ∧ ∀ i, i < (loadMessagesWithRetry att counter).delays.length →
        (loadMessagesWithRetry att counter).delays[i]?
          = some (min (RETRY_DELAY * 2 ^ (counter + i)) 10000) := by
  have h := loadMessagesWithRetryAux_spec att (MAX_RETRIES - counter) 0 counter
  refine ⟨?_, fun _ => h.2.1, ?_, h.2.2⟩
  · have h1 := h.1
    unfold loadMessagesWithRetry
    omega
  · intro hc
    have hz : MAX_RETRIES - counter = 0 := by omega
    unfold loadMessagesWithRetry
    rw [hz]
    exact ⟨rfl, rfl⟩

/-- Witness for `loadMessagesWithRetry_spec` at concrete inputs: an
immediately successful load ends with the counter cleared; a counter
already at `MAX_RETRIES = 3` makes zero attempts and fails fast; the
first retry delay of a fresh failing session is 2000 ms. -/
theorem loadMessagesWithRetry_spec_witness :
    (loadMessagesWithRetry (fun _ => true) 0).finalCounter = none
    ∧ ((loadMessagesWithRetry (fun _ => false) 3).attempts = 0
        ∧ (loadMessagesWithRetry (fun _ => false) 3).outcome = .maxRetriesError)
    ∧ (loadMessagesWithRetry (fun _ => false) 0).delays[0]?
        = some (min (RETRY_DELAY * 2 ^ (0 + 0)) 10000) :=
  ⟨(loadMessagesWithRetry_spec (fun _ => true) 0).2.1 (by decide),
   (loadMessagesWithRetry_spec (fun _ => false) 3).2.2.1 (by decide),
   (loadMessagesWithRetry_spec (fun _ => false) 0).2.2.2 0 (by decide)⟩

/-- C4: while the Load-In-Flight Guard key `messageQueue:{roomId}:{userId}`
is present, a second `fetchPreviousMessages` request from an authorised
member is silently dropped: no event at all is emitted to the requester
(no `messageLoadStart`, no `previousMessagesLoaded`, no error) and no load
is started, whether or not the in-flight load will succeed. -/
theorem fetchPreviousMessages_guard_drops (isMember guardPresent loadSucceeds : Bool)
    (hm : isMember = true) (hg : guardPresent = true) :
    fetchPreviousMessages isMember guardPresent loadSucceeds = ([], false) := by
  subst hm; subst hg
  cases loadSucceeds <;> rfl

/-- Witness for `fetchPreviousMessages_guard_drops`. -/
theorem fetchPreviousMessages_guard_drops_witness :
    fetchPreviousMessages true true false = ([], false) :=
  fetchPreviousMessages_guard_drops true true false rfl rfl

/-- C7: every newly established connection overwrites the Presence Record
unconditionally (last-writer-wins); the disconnect handler deletes the
record when it still names the disconnecting socket, and a stale
disconnect of a different (older) socket never evicts the record a newer
session wrote. -/
theorem presence_record_spec :
    (∀ presence socketId, registerConnection presence socketId = some socketId)
    ∧ (∀ socketId, disconnectCleanup (some socketId) socketId = none)
    ∧ (∀ current socketId, current ≠ socketId →
        disconnectCleanup (some current) socketId = some current) := by
  refine ⟨fun _ _ => rfl, fun s => by simp [disconnectCleanup], ?_⟩
  intro current socketId h
  simp [disconnectCleanup, h]

/-- Witness for `presence_record_spec`: the stale disconnect of socket
`"old"` does not evict the record now naming `"new"`. -/
theorem presence_record_spec_witness :
    disconnectCleanup (some "new") "old" = some "new" :=
  presence_record_spec.2.2 "new" "old" (by decide)

/-- C9: the claim says the cache patch of `markMessagesAsRead` is
best-effort and never fails the operation, which then broadcasts
`messagesRead`. The patch body
`cached[idx].readers.push({ userId: socket.user.id, readAt })` (line 931)
names `readAt`, a variable declared nowhere in the handler, so the patch
throws a `ReferenceError` whenever it actually has something to patch;
the catch block then emits the error event and the broadcast never
happens. Concretely: message 1 of room 1, unread, is in the cache; user 7
marks it read at time 100. The store update does append reader `(7, 100)`
idempotently, but the handler emits `errorEvent` instead of
`messagesRead`. (When the patch finds nothing to push — second conjunct,
message already read by user 7 — nothing throws and the broadcast goes
out, showing the failure is exactly the patch path.) -/
theorem markMessagesAsRead_cachePatch_fails :
    markMessagesAsRead [⟨1, 1, []⟩] [⟨1, some []⟩] 1 7 100 [1]
      = ([⟨1, 1, [(7, 100)]⟩], [.errorEvent])
    ∧ markMessagesAsRead [⟨1, 1, [(7, 50)]⟩] [⟨1, some [7]⟩] 1 7 100 [1]
      = ([⟨1, 1, [(7, 50)]⟩], [.messagesRead 7 [1]]) := by decide

/-- Unfolding `joinRoom` on the already-in-room path. -/
theorem joinRoom_already (s : JoinState) (uid r : Nat) (h : s.userRoom = some r) :
    joinRoom s uid r = (s, [.emitJoinRoomSuccessShort r]) := by
  unfold joinRoom
  rw [if_pos h]

/-- Unfolding `joinRoom` when the identity is not already in room `r` and
the room exists with participants `mem`. -/
theorem joinRoom_found (s : JoinState) (uid r : Nat) (mem : List Nat)
    (h0 : s.userRoom ≠ some r) (hr : findRoom s r = some mem) :
    joinRoom s uid r =
      ({ userRoom := some r
         rooms := s.rooms.map fun p =>
           if p.rid == r then
             { p with participants := if uid ∈ mem then mem else mem ++ [uid] }
           else p
         joinMessages := s.joinMessages ++ [r] },
       leaveTraceOf s.userRoom ++
        [.addParticipant r, .socketJoin r, .setUserRoom r, .saveJoinMessage r,
         .loadInitial r, .emitJoinRoomSuccess r (if uid ∈ mem then mem else mem ++ [uid]),
         .broadcastJoinMessage r,
         .broadcastParticipants r (if uid ∈ mem then mem else mem ++ [uid])]) := by
  unfold joinRoom
  rw [if_neg h0, hr]

/-- The participant-list rewrite of room `r` leaves lookups of any other
room id `r0` unchanged. -/
theorem find?_roomUpdate_ne (rooms : List RoomRec) (r r0 : Nat) (mem' : List Nat)
    (h : r0 ≠ r) :
    (rooms.map fun p =>
        if p.rid == r then { p with participants := mem' } else p).find?
        (fun p => p.rid == r0)
      = rooms.find? fun p => p.rid == r0 := by
  induction rooms with
  | nil => rfl
  | cons p ps ih =>
    simp only [List.map_cons]
    by_cases h1 : p.rid = r
    · have hfp : (if (p.rid == r) = true then { p with participants := mem' } else p)
          = { p with participants := mem' } := by simp [h1]
      rw [hfp]
      rw [List.find?_cons_of_neg _ (by simp [h1]; omega),
        List.find?_cons_of_neg _ (by simp [h1]; omega)]
      exact ih
    · have hfp : (if (p.rid == r) = true then { p with participants := mem' } else p) = p := by
        simp [h1]
      rw [hfp]
      by_cases h2 : p.rid = r0
      · rw [List.find?_cons_of_pos _ (by simp [h2]), List.find?_cons_of_pos _ (by simp [h2])]
      · rw [List.find?_cons_of_neg _ (by simp [h2]), List.find?_cons_of_neg _ (by simp [h2])]
        exact ih

/-- The participant-list rewrite of room `r` makes a successful lookup of
room `r` return exactly the new list. -/
theorem find?_roomUpdate_self (rooms : List RoomRec) (r : Nat) (mem' : List Nat)
    (pr : RoomRec) (h : rooms.find? (fun p => p.rid == r) = some pr) :
    ((rooms.map fun p =>
        if p.rid == r then { p with participants := mem' } else p).find?
        (fun p => p.rid == r)).map (·.participants) = some mem' := by
  induction rooms with
  | nil => simp at h
  | cons p ps ih =>
    simp only [List.map_cons]
    by_cases h1 : p.rid = r
    · have hfp : (if (p.rid == r) = true then { p with participants := mem' } else p)
          = { p with participants := mem' } := by simp [h1]
      rw [hfp, List.find?_cons_of_pos _ (by simp [h1])]
      rfl
    · have hfp : (if (p.rid == r) = true then { p with participants := mem' } else p) = p := by
        simp [h1]
      rw [hfp, List.find?_cons_of_neg _ (by simp [h1])]
      rw [List.find?_cons_of_neg _ (by simp [h1])] at h
      exact ih h

/-- C5 counterexample: identity 5 occupies room 1 and is in room 1's
persisted member list; it joins the password-protected room 2. The join
succeeds end-to-end (full success trace, no accessibility action of any
kind appears), yet room 1's persisted member list still contains 5 —
contradicting the claim that the removal from the previous room updates
that room's persisted member list (and that a password-protected target
is checked for accessibility). Only the Occupancy Record and the
socket-level room change; the `userLeft` broadcast is the sole
notification to the vacated room. -/
theorem joinRoom_prevRoom_members_kept :
    5 ∈ (findRoom c5State 1).getD []
    ∧ (c5State.rooms.find? fun p => p.rid == 2).map (·.hasPassword) = some true
    ∧ (joinRoom c5State 5 2).1.userRoom = some 2
    ∧ (joinRoom c5State 5 2).2 =
        [.socketLeave 1, .delUserRoom, .emitUserLeft 1,
         .addParticipant 2, .socketJoin 2, .setUserRoom 2, .saveJoinMessage 2,
         .loadInitial 2, .emitJoinRoomSuccess 2 [9, 5], .broadcastJoinMessage 2,
         .broadcastParticipants 2 [9, 5]]
    ∧ findRoom (joinRoom c5State 5 2).1 1 = some [5] := by decide

/-- C5 as amended: when an identity occupying room `r0` joins a different
existing room `r`, `joinRoom` performs, in exactly this order: socket-level
departure from `r0` with deletion of the Occupancy Record and a
`userLeft` broadcast to `r0` (the vacated room's persisted member list is
not modified, and no password-accessibility check is performed in this
handler); one atomic existence check plus set-semantics addition of the
identity to `r`'s persisted member list; the socket-level join; the
Occupancy Record update; persistence of the system join message; the
initial history load; a single success response carrying the fresh member
list (and the history page); and the broadcasts of the join message and
of the updated member list. The identity is a member of `r` afterwards,
and the vacated room's record is exactly what it was. -/
theorem joinRoom_switch_spec (s : JoinState) (uid r r0 : Nat) (mem : List Nat)
    (h0 : s.userRoom = some r0) (hne : r0 ≠ r) (hr : findRoom s r = some mem) :
    joinRoom s uid r =
      ({ userRoom := some r
         rooms := s.rooms.map fun p =>
           if p.rid == r then
             { p with participants := if uid ∈ mem then mem else mem ++ [uid] }
           else p
         joinMessages := s.joinMessages ++ [r] },
       [.socketLeave r0, .delUserRoom, .emitUserLeft r0,
        .addParticipant r, .socketJoin r, .setUserRoom r, .saveJoinMessage r,
        .loadInitial r, .emitJoinRoomSuccess r (if uid ∈ mem then mem else mem ++ [uid]),
        .broadcastJoinMessage r,
        .broadcastParticipants r (if uid ∈ mem then mem else mem ++ [uid])])
    ∧ uid ∈ (if uid ∈ mem then mem else mem ++ [uid])
    ∧ findRoom (joinRoom s uid r).1 r0 = findRoom s r0 := by
  have h0' : s.userRoom ≠ some r := by rw [h0]; simpa using hne
  refine ⟨?_, ?_, ?_⟩
  · rw [joinRoom_found s uid r mem h0' hr, h0]
    rfl
  · by_cases huid : uid ∈ mem <;> simp [huid]
  · rw [joinRoom_found s uid r mem h0' hr]
    show ((s.rooms.map fun p =>
        if p.rid == r then
          { p with participants := if uid ∈ mem then mem else mem ++ [uid] }
        else p).find? fun p => p.rid == r0).map (·.participants)
      = findRoom s r0
    rw [find?_roomUpdate_ne s.rooms r r0 _ hne]
    rfl

/-- Witness for `joinRoom_switch_spec`: identity 5 switching from room 1
to room 2 of `c5State` leaves room 1's record untouched. -/
theorem joinRoom_switch_spec_witness :
    findRoom (joinRoom c5State 5 2).1 1 = findRoom c5State 1 :=
  (joinRoom_switch_spec c5State 5 2 1 [9] rfl (by decide) (by decide)).2.2

/-- C6: `joinRoom` is idempotent. If an identity whose occupancy does not
yet name the existing room `r` joins it (first call) and then joins `r`
again, the second call returns immediately with only the short success
response (no save, no load, no broadcast of any kind), the state is
unchanged, the identity appears exactly once in `r`'s member list (the
`$addToSet` set-semantics, given it appeared at most once before), and
exactly one system join message was persisted across both calls. -/
theorem joinRoom_idempotent (s : JoinState) (uid r : Nat) (mem : List Nat)
    (h0 : s.userRoom ≠ some r) (hr : findRoom s r = some mem)
    (hcnt : mem.count uid ≤ 1) :
    (joinRoom (joinRoom s uid r).1 uid r).1 = (joinRoom s uid r).1
    ∧ (joinRoom (joinRoom s uid r).1 uid r).2 = [.emitJoinRoomSuccessShort r]
    ∧ ((findRoom (joinRoom s uid r).1 r).getD []).count uid = 1
    ∧ (joinRoom (joinRoom s uid r).1 uid r).1.joinMessages = s.joinMessages ++ [r] := by
  have base := joinRoom_found s uid r mem h0 hr
  have hocc : (joinRoom s uid r).1.userRoom = some r := by rw [base]
  have hsecond := joinRoom_already (joinRoom s uid r).1 uid r hocc
  have hpr : ∃ pr, s.rooms.find? (fun p => p.rid == r) = some pr := by
    unfold findRoom at hr
    cases hfind : s.rooms.find? fun p => p.rid == r with
    | none => rw [hfind] at hr; simp at hr
    | some pr => exact ⟨pr, rfl⟩
  obtain ⟨pr, hpr⟩ := hpr
  have hmem : findRoom (joinRoom s uid r).1 r
      = some (if uid ∈ mem then mem else mem ++ [uid]) := by
    rw [base]
    show ((s.rooms.map fun p =>
        if p.rid == r then
          { p with participants := if uid ∈ mem then mem else mem ++ [uid] }
        else p).find? fun p => p.rid == r).map (·.participants)
      = some (if uid ∈ mem then mem else mem ++ [uid])
    exact find?_roomUpdate_self s.rooms r _ pr hpr
  refine ⟨by rw [hsecond], by rw [hsecond], ?_, ?_⟩
  · rw [hmem]
    by_cases huid : uid ∈ mem
    · simp only [if_pos huid, Option.getD_some]
      have h1 : 0 < mem.count uid := List.count_pos_iff.mpr huid
      omega
    · simp only [if_neg huid, Option.getD_some, List.count_append]
      have h1 : mem.count uid = 0 := List.count_eq_zero.mpr huid
      simp [h1, List.count_cons]
  · rw [hsecond, base]

/-- Witness for `joinRoom_idempotent`: identity 5 joining room 2 of
`c6State` twice appears once in the member list, and the second call
answers with the short success only. -/
theorem joinRoom_idempotent_witness :
    ((findRoom (joinRoom c6State 5 2).1 2).getD []).count 5 = 1
    ∧ (joinRoom (joinRoom c6State 5 2).1 5 2).2 = [.emitJoinRoomSuccessShort 2] :=
  ⟨(joinRoom_idempotent c6State 5 2 [9] (by decide) (by decide) (by decide)).2.2.1,
   (joinRoom_idempotent c6State 5 2 [9] (by decide) (by decide) (by decide)).2.1⟩

/-- C8 counterexample: the claim says text content that is empty after
mention-stripping is a silent no-op (nothing persisted, no broadcast).
The content `"@wayneAI"` is empty after mention-stripping, yet the handler
— which only tests the *trimmed* content (`content?.trim() ||
messageData.msg?.trim()`, line 628) and strips mentions solely to build
the assistant query (line 704) — persists and broadcasts the message
`"@wayneAI"` and invokes the assistant with the empty query. -/
theorem chatMessageText_mentionStrip_counterexample :
    contentAfterMentionStrip "@wayneAI" = ""
    ∧ chatMessageText (some "@wayneAI") none
        = .sent "@wayneAI" [("wayneAI", "")] := by decide

/-- C8 as amended: a `type=text` send is a silent no-op (no persist, no
broadcast, no error) exactly when the content — after trimming, with the
legacy `msg` field as fallback — is empty; whenever a message is sent,
its persisted content is that non-empty trimmed content (mentions
included), and the assistant invocations carry the mention-stripped
queries. -/
theorem chatMessageText_spec (content msgField : Option String) :
    (chatMessageText content msgField = .silentNoop
      ↔ effectiveTextContent content msgField = "")
    ∧ ∀ p aiCalls, chatMessageText content msgField = .sent p aiCalls →
        p = effectiveTextContent content msgField ∧ p ≠ ""
        ∧ aiCalls = (extractAIMentions content).map
            fun ai => (ai, aiQuery ai (content.getD "")) := by
  constructor
  · by_cases h : effectiveTextContent content msgField = "" <;> simp [chatMessageText, h]
  · intro p aiCalls hp
    by_cases h : effectiveTextContent content msgField = ""
    · simp only [chatMessageText, h, if_pos] at hp
      exact absurd hp (by simp)
    · simp only [chatMessageText] at hp
      rw [if_neg h] at hp
      injection hp with h1 h2
      subst h1
      exact ⟨rfl, h, h2.symm⟩

/-- Witness for `chatMessageText_spec`: sending `" hello "` persists the
trimmed `"hello"` with no assistant invocation. -/
theorem chatMessageText_spec_witness :
    "hello" = effectiveTextContent (some " hello ") none ∧ "hello" ≠ ""
    ∧ ([] : List (String × String)) = (extractAIMentions (some " hello ")).map
        (fun ai => (ai, aiQuery ai ((some " hello ").getD ""))) :=
  (chatMessageText_spec (some " hello ") none).2 "hello" [] (by decide)

/-- `addReaction` returns the label's reactor list as it stands after the
update. -/
theorem addReaction_returns (rs : Reactions) (emoji : String) (uid : Nat) :
    (addReaction rs emoji uid).2 = reactionsGet (addReaction rs emoji uid).1 emoji := by
  simp only [addReaction]
  by_cases h : ((reactionsGet rs emoji).getD []).contains uid
  · rw [if_pos h]
  · rw [if_neg h]

/-- `removeReaction` returns the label's reactor list as it stands after
the update (`none` when the label is absent afterwards). -/
theorem removeReaction_returns (rs : Reactions) (emoji : String) (uid : Nat) :
    (removeReaction rs emoji uid).2
      = reactionsGet (removeReaction rs emoji uid).1 emoji := by
  cases hg : reactionsGet rs emoji with
  | none => simp [removeReaction, hg]
  | some cur => simp only [removeReaction, hg]

/-- Under the invariant, any list the map holds is non-empty and
duplicate-free. -/
theorem reactionsGet_WF (rs : Reactions) (emoji : String) (l : List Nat)
    (hwf : ReactionsWF rs) (h : reactionsGet rs emoji = some l) :
    l ≠ [] ∧ l.Nodup := by
  unfold reactionsGet at h
  cases hf : rs.find? (fun p => p.1 == emoji) with
  | none => rw [hf] at h; simp at h
  | some pr =>
    rw [hf] at h
    have h2 : pr.2 = l := by simpa using h
    rw [← h2]
    exact hwf.2 pr (List.mem_of_find?_eq_some hf)

/-- `reactions.set` preserves the invariant when the written list is
non-empty and duplicate-free. -/
theorem ReactionsWF_set (rs : Reactions) (emoji : String) (v : List Nat)
    (hwf : ReactionsWF rs) (hv : v ≠ []) (hnd : v.Nodup) :
    ReactionsWF (reactionsSet rs emoji v) := by
  unfold reactionsSet
  by_cases h : (rs.find? fun p => p.1 == emoji).isSome
  · rw [if_pos h]
    constructor
    · have hkeys : ((rs.map fun p => if p.1 == emoji then (p.1, v) else p).map (·.1))
          = rs.map (·.1) := by
        rw [List.map_map]
        apply List.map_congr_left
        intro p _
        by_cases hp : p.1 = emoji <;> simp [hp]
      rw [hkeys]
      exact hwf.1
    · intro q hq
      obtain ⟨p, hp, hfq⟩ := List.mem_map.mp hq
      by_cases hpe : p.1 = emoji
      · rw [← hfq]
        simp only [hpe, beq_self_eq_true, if_true]
        exact ⟨hv, hnd⟩
      · rw [← hfq]
        have hpe' : (p.1 == emoji) = false := by simp [hpe]
        simp only [hpe', Bool.false_eq_true, if_false]
        exact hwf.2 p hp
  · rw [if_neg h]
    have hfn : rs.find? (fun p => p.1 == emoji) = none := by
      cases hfind : rs.find? (fun p => p.1 == emoji) with
      | none => rfl
      | some pr => rw [hfind] at h; simp at h
    constructor
    · rw [List.map_append]
      rw [List.nodup_append]
      refine ⟨hwf.1, List.nodup_singleton emoji, ?_⟩
      intro a ha hb
      obtain ⟨p, hp, rfl⟩ := List.mem_map.mp ha
      have hne := List.find?_eq_none.mp hfn p hp
      have hb' : p.1 = emoji := by simpa using hb
      exact hne (by simp [hb'])
    · intro q hq
      rcases List.mem_append.mp hq with hq | hq
      · exact hwf.2 q hq
      · simp only [List.mem_singleton] at hq
        rw [hq]
        exact ⟨hv, hnd⟩

/-- `reactions.delete` preserves the invariant. -/
theorem ReactionsWF_delete (rs : Reactions) (emoji : String)
    (hwf : ReactionsWF rs) : ReactionsWF (reactionsDelete rs emoji) := by
  unfold reactionsDelete
  constructor
  · exact hwf.1.sublist ((List.filter_sublist rs).map (·.1))
  · intro q hq
    exact hwf.2 q (List.mem_of_mem_filter hq)

/-- `addReaction` preserves the invariant. -/
theorem ReactionsWF_add (rs : Reactions) (emoji : String) (uid : Nat)
    (hwf : ReactionsWF rs) : ReactionsWF (addReaction rs emoji uid).1 := by
  simp only [addReaction]
  by_cases h : ((reactionsGet rs emoji).getD []).contains uid
  · rw [if_pos h]
    exact hwf
  · rw [if_neg h]
    have hcur : ((reactionsGet rs emoji).getD []).Nodup := by
      cases hg : reactionsGet rs emoji with
      | none => simp
      | some l => simpa using (reactionsGet_WF rs emoji l hwf hg).2
    have huid : uid ∉ (reactionsGet rs emoji).getD [] := by
      intro hc
      exact h (List.elem_eq_true_of_mem hc)
    apply ReactionsWF_set rs emoji _ hwf (by simp)
    rw [List.nodup_append]
    refine ⟨hcur, List.nodup_singleton uid, ?_⟩
    intro a ha hb
    simp only [List.mem_singleton] at hb
    rw [hb] at ha
    exact huid ha

/-- `removeReaction` preserves the invariant: in particular, removing the
last reactor deletes the label instead of leaving an empty list. -/
theorem ReactionsWF_remove (rs : Reactions) (emoji : String) (uid : Nat)
    (hwf : ReactionsWF rs) : ReactionsWF (removeReaction rs emoji uid).1 := by
  simp only [removeReaction]
  cases hg : reactionsGet rs emoji with
  | none => exact hwf
  | some cur =>
    show ReactionsWF
      (if (cur.filter fun i => !(i == uid)).isEmpty then reactionsDelete rs emoji
       else reactionsSet rs emoji (cur.filter fun i => !(i == uid)))
    by_cases he : (cur.filter fun i => !(i == uid)).isEmpty
    · rw [if_pos he]
      exact ReactionsWF_delete rs emoji hwf
    · rw [if_neg he]
      apply ReactionsWF_set rs emoji _ hwf
      · intro hc
        rw [hc] at he
        exact he rfl
      · exact ((reactionsGet_WF rs emoji cur hwf hg).2).filter _

/-- One toggle preserves the invariant. -/
theorem applyReactionOp_WF (rs : Reactions) (op : ReactionOp)
    (hwf : ReactionsWF rs) : ReactionsWF (applyReactionOp rs op) := by
  cases op with
  | add e u => exact ReactionsWF_add rs e u hwf
  | remove e u => exact ReactionsWF_remove rs e u hwf

/-- Folding toggles preserves the invariant. -/
theorem foldl_applyReactionOp_WF (ops : List ReactionOp) :
    ∀ rs, ReactionsWF rs → ReactionsWF (ops.foldl applyReactionOp rs) := by
  induction ops with
  | nil => exact fun _ h => h
  | cons op ops ih => exact fun rs h => ih _ (applyReactionOp_WF rs op h)

/-- C10: after any sequence of `addReaction` / `removeReaction` toggles on
a message's initially empty reaction map, the map never holds an empty
reactor list under any label (removing the last reactor deletes the label
entry), no reactor id appears twice in any label's list (`addReaction`
appends only reactors not already present), and both operations return
the queried label's reactor list exactly as it stands after the update. -/
theorem reactions_invariant_spec (ops : List ReactionOp) (emoji : String) (uid : Nat) :
    ReactionsWF (applyReactionOps ops)
    ∧ (addReaction (applyReactionOps ops) emoji uid).2
        = reactionsGet (addReaction (applyReactionOps ops) emoji uid).1 emoji
    ∧ (removeReaction (applyReactionOps ops) emoji uid).2
        = reactionsGet (removeReaction (applyReactionOps ops) emoji uid).1 emoji :=
  ⟨foldl_applyReactionOp_WF ops [] ⟨List.nodup_nil, by simp⟩,
   addReaction_returns _ emoji uid, removeReaction_returns _ emoji uid⟩

end ChatBackend
